/-
Verification of the NetCDF TimeRemapper programmable filter
(src/NetCDF_TimeRemapper.py) against its natural-language specification.

The script consists of three pipeline callbacks:
  1. RequestInformation  — parses the external time file, builds the session
     state (custom_times, orig_times, custom_times_annotation, new_units) and
     publishes the custom time steps and time range;
  2. RequestUpdateExtent — maps the requested custom time to an index into
     custom_times and pushes orig_times[idx] upstream, recording the requested
     value in current_requested_custom_time;
  3. Script (RequestData) — re-resolves the recorded custom time value to an
     index, fixes the time-units field-data attribute and attaches the
     current_date annotation.

Embedding conventions:
  * Python floats that the script stores in custom_times are produced by
    float(int64_seconds); within the script's documented operating range
    (±10,000 years ≈ 3.2e11 s, far below 2^53) the conversion is exact and
    float equality coincides with integer equality, so times are modelled
    as Int.
  * A value that may be Python None is modelled as an Option.
  * Exceptions raised during the build are modelled by Except BuildError;
    an uncaught IndexError in the later passes is modelled by Option.
  * np.datetime64 parsing is modelled for the "±YYYY-MM-DDThh:mm:ssZ?"-free
    layout this filter uses: proleptic Gregorian calendar with a year 0,
    negative (BCE) years allowed, whole-second resolution.
-/
import Mathlib

namespace TimeRemapper

/-! ### Python string primitives used by the script -/

/-- `str.strip()` on the character list: drop leading and trailing whitespace. -/
def trimChars (cs : List Char) : List Char :=
  ((cs.dropWhile Char.isWhitespace).reverse.dropWhile Char.isWhitespace).reverse

/-- Python `line.strip()`. -/
def pyStrip (s : String) : String :=
  String.mk (trimChars s.data)

/-- Python `line.startswith("#")`: tests the raw, unstripped first character. -/
def pyStartsWithHash (s : String) : Bool :=
  match s.data with
  | [] => false
  | c :: _ => c == '#'

/-- Does `pat` occur at the head of `s`? (helper for Python `in`). -/
def leadsWith : List Char → List Char → Bool
  | [], _ => true
  | _ :: _, [] => false
  | p :: ps, c :: cs => p == c && leadsWith ps cs

/-- Python substring test `pat in s` on character lists. -/
def hasSub (pat : List Char) : List Char → Bool
  | [] => leadsWith pat []
  | c :: cs => leadsWith pat (c :: cs) || hasSub pat cs

/-- Python `pat in s` for strings. -/
def strContainsSub (s pat : String) : Bool :=
  hasSub pat.data s.data

/-- Python `s.lower()` (the script only feeds it ASCII array names). -/
def pyLower (s : String) : String :=
  String.mk (s.data.map Char.toLower)

/-- Python `list.index(v)` (first occurrence, `none` models `ValueError`). -/
def pyListIndex (l : List Int) (v : Int) : Option Nat :=
  match l with
  | [] => none
  | x :: xs => if x = v then some 0 else (pyListIndex xs v).map (· + 1)

/-! ### Proleptic Gregorian calendar (model of `np.datetime64` arithmetic) -/

/-- Proleptic Gregorian leap-year rule, valid for all signed years
(`Int.emod` is non-negative, so BCE years work). -/
def isLeap (y : Int) : Bool :=
  (y.emod 4 == 0 && y.emod 100 != 0) || y.emod 400 == 0

/-- Days in month `m` of year `y` (months are 1-based). -/
def daysInMonth (y : Int) (m : Nat) : Nat :=
  match m with
  | 1 => 31 | 2 => if isLeap y then 29 else 28 | 3 => 31 | 4 => 30
  | 5 => 31 | 6 => 30 | 7 => 31 | 8 => 31 | 9 => 30 | 10 => 31
  | 11 => 30 | 12 => 31 | _ => 0

/-- Days before month `m` in a non-leap year. -/
def daysBeforeMonth (m : Nat) : Nat :=
  match m with
  | 1 => 0 | 2 => 31 | 3 => 59 | 4 => 90 | 5 => 120 | 6 => 151
  | 7 => 181 | 8 => 212 | 9 => 243 | 10 => 273 | 11 => 304 | 12 => 334
  | _ => 0

/-- Number of leap years in the interval `[0, y)` (negative when `y < 0`),
using floor division so that negative years are counted correctly. -/
def leapsBefore (y : Int) : Int :=
  (y + 3).fdiv 4 - (y + 99).fdiv 100 + (y + 399).fdiv 400

/-- Days from 0000-01-01 to `y`-01-01 in the proleptic Gregorian calendar. -/
def daysFromYear0 (y : Int) : Int :=
  365 * y + leapsBefore y

/-- Days from 0000-01-01 to the civil date `y-m-d`. -/
def civilToDays (y : Int) (m d : Nat) : Int :=
  daysFromYear0 y + daysBeforeMonth m
    + (if 2 < m && isLeap y then 1 else 0) + (d : Int) - 1

/-- Days from 0000-01-01 to the numpy epoch 1970-01-01. -/
def epochDays : Int := 719528

/-! ### Parsing a datetime string (model of `np.datetime64(line)`) -/

/-- Value of a decimal digit character. -/
def digitVal (c : Char) : Option Nat :=
  if c.isDigit then some (c.toNat - 48) else none

/-- Read a maximal run of decimal digits. -/
def readDigits : List Char → (List Nat × List Char)
  | [] => ([], [])
  | c :: cs =>
    match digitVal c with
    | some v => let (ds, rest) := readDigits cs; (v :: ds, rest)
    | none => ([], c :: cs)

/-- Decimal value of a digit run. -/
def digitsToNat (ds : List Nat) : Nat :=
  ds.foldl (fun a d => 10 * a + d) 0

/-- Read exactly two decimal digits. -/
def parse2 (cs : List Char) : Option (Nat × List Char) :=
  match cs with
  | a :: b :: rest =>
    match digitVal a, digitVal b with
    | some x, some y => some (10 * x + y, rest)
    | _, _ => none
  | _ => none

/-- Consume the expected character `c`. -/
def expectChar (c : Char) : List Char → Option (List Char)
  | [] => none
  | x :: xs => if x == c then some xs else none

/-- Model of `np.datetime64(s)` for the `±YYYY-MM-DDThh:mm:ss` layout the
filter consumes: returns whole seconds since 1970-01-01T00:00:00 in the
proleptic Gregorian calendar (year 0 exists; a leading `-` gives a BCE
year; years are zero-padded to at least four digits as numpy requires). -/
def parseDatetime64 (s : String) : Option Int :=
  let (neg, cs0) :=
    match s.data with
    | '-' :: rest => (true, rest)
    | cs => (false, cs)
  let (yds, cs1) := readDigits cs0
  if yds.length < 4 then none
  else
    let y : Int := if neg then -(digitsToNat yds : Int) else (digitsToNat yds : Int)
    match expectChar '-' cs1 with
    | none => none
    | some cs2 =>
      match parse2 cs2 with
      | none => none
      | some (m, cs3) =>
        match expectChar '-' cs3 with
        | none => none
        | some cs4 =>
          match parse2 cs4 with
          | none => none
          | some (d, cs5) =>
            match expectChar 'T' cs5 with
            | none => none
            | some cs6 =>
              match parse2 cs6 with
              | none => none
              | some (hh, cs7) =>
                match expectChar ':' cs7 with
                | none => none
                | some cs8 =>
                  match parse2 cs8 with
                  | none => none
                  | some (mi, cs9) =>
                    match expectChar ':' cs9 with
                    | none => none
                    | some cs10 =>
                      match parse2 cs10 with
                      | none => none
                      | some (ss, cs11) =>
                        if cs11 = [] && 1 ≤ m && m ≤ 12 && 1 ≤ d
                            && d ≤ daysInMonth y m && hh ≤ 23 && mi ≤ 59 && ss ≤ 59 then
                          some ((civilToDays y m d - epochDays) * 86400
                            + (hh : Int) * 3600 + (mi : Int) * 60 + (ss : Int))
                        else none

/-! ### The session state built by RequestInformation -/

/-- Errors the RequestInformation script can raise. -/
inductive BuildError where
  /-- `RuntimeError("TXT file empty!")` -/
  | emptyInput : BuildError
  /-- `ValueError` raised by `parse_date` (missing `T` or empty part); carries
  the offending line. -/
  | malformedEntry (line : String) : BuildError
  /-- `np.datetime64(line)` failed to parse. -/
  | invalidDatetime (line : String) : BuildError
  /-- `ValueError` raised when the file's entry count differs from the
  upstream time-step count; carries both counts (file, data). -/
  | stepCountMismatch (numFile numData : Nat) : BuildError
deriving DecidableEq, Repr

/-- Decidable equality on build results, for concrete evaluation. -/
instance exceptDecEq {ε α : Type} [DecidableEq ε] [DecidableEq α] :
    DecidableEq (Except ε α) := fun a b =>
  match a, b with
  | .ok x, .ok y =>
    if h : x = y then .isTrue (by rw [h]) else .isFalse (by simp [h])
  | .error x, .error y =>
    if h : x = y then .isTrue (by rw [h]) else .isFalse (by simp [h])
  | .ok _, .error _ => .isFalse (by simp)
  | .error _, .ok _ => .isFalse (by simp)

/-- The attributes RequestInformation stores on `self` for the later passes. -/
structure SessionState where
  /-- `self.new_units` -/
  new_units : String
  /-- `self.custom_times_annotation` -/
  custom_times_annotation : List String
  /-- `self.custom_times` (exact integer seconds, see header) -/
  custom_times : List Int
  /-- `self.orig_times` -/
  orig_times : List Int
deriving DecidableEq, Repr

/-- Line filter of RequestInformation (line 54):
`[line.strip() for line in f if line.strip() and not line.startswith("#")]`.
Note the `startswith` test runs on the raw, unstripped line. -/
def filterLines (raw : List String) : List String :=
  (raw.filter (fun line => !(pyStrip line == "") && !pyStartsWithHash line)).map pyStrip

/-- `parse_date(s)` (lines 61-70): requires a `T` separator, splits on the
first `T`, and requires both parts non-empty. -/
def parse_date (s : String) : Except BuildError (String × String) :=
  match splitFirstT s.data with
  | none => .error (.malformedEntry s)
  | some (d, t) =>
    if d = [] || t = [] then .error (.malformedEntry s)
    else .ok (String.mk d, String.mk t)
where
  /-- `s.split('T', 1)`; `none` when no `T` occurs. -/
  splitFirstT : List Char → Option (List Char × List Char)
    | [] => none
    | c :: cs =>
      if c = 'T' then some ([], cs)
      else (splitFirstT cs).map (fun p => (c :: p.1, p.2))

/-- The first loop (lines 82-87): annotation strings `date + " " + time`. -/
def buildAnnotations : List String → Except BuildError (List String)
  | [] => .ok []
  | l :: ls =>
    match parse_date l with
    | .error e => .error e
    | .ok (d, t) =>
      match buildAnnotations ls with
      | .error e => .error e
      | .ok rest => .ok ((d ++ " " ++ t) :: rest)

/-- The second loop (lines 91-96): seconds of each entry relative to the
reference instant. -/
def buildCustomTimes (refSec : Int) : List String → Except BuildError (List Int)
  | [] => .ok []
  | l :: ls =>
    match parseDatetime64 l with
    | none => .error (.invalidDatetime l)
    | some sec =>
      match buildCustomTimes refSec ls with
      | .error e => .error e
      | .ok rest => .ok ((sec - refSec) :: rest)

/-- The RequestInformation script (lines 52-111): filter the file lines,
parse the reference, build annotations and custom times, check the step
count against the upstream source and assemble the session state. The
statements mirror the script's order, so the first failing step decides
the error. -/
def buildSession (raw : List String) (nativeTimes : List Int) :
    Except BuildError SessionState :=
  match filterLines raw with
  | [] => .error .emptyInput
  | l0 :: rest =>
    match parseDatetime64 l0 with
    | none => .error (.invalidDatetime l0)
    | some refSec =>
      match parse_date l0 with
      | .error e => .error e
      | .ok (refDateStr, refTimeStr) =>
        match buildAnnotations (l0 :: rest) with
        | .error e => .error e
        | .ok anns =>
          match buildCustomTimes refSec (l0 :: rest) with
          | .error e => .error e
          | .ok customs =>
            if nativeTimes.length ≠ customs.length then
              .error (.stepCountMismatch customs.length nativeTimes.length)
            else
              .ok { new_units := "seconds since " ++ refDateStr ++ " " ++ refTimeStr
                    custom_times_annotation := anns
                    custom_times := customs
                    orig_times := nativeTimes }

/-- The TIME_RANGE pair published at lines 129-130:
`[custom_times[0], custom_times[-1]]`; nothing is set when the list is
empty. -/
def publishedTimeRange (s : SessionState) : Option (Int × Int) :=
  match s.custom_times with
  | [] => none
  | t0 :: rest => some (t0, rest.getLastD t0)

/-! ### The index resolutions of the two later passes -/

/-- `custom_times.index(v)` where `v` may be Python `None` (lines 206-209
feed the recorded value straight to `index`; `None` never equals a float,
so it always raises `ValueError`). -/
def pyIndexMaybe (ts : List Int) (v : Option Int) : Option Nat :=
  match v with
  | none => none
  | some x => pyListIndex ts x

/-- Index computation of RequestUpdateExtent (lines 145-151): explicit
`None` test, then exact-match lookup with fallback to 0. -/
def resolveUpdateIdx (ts : List Int) (requested_time : Option Int) : Nat :=
  match requested_time with
  | none => 0
  | some t =>
    match pyListIndex ts t with
    | some i => i
    | none => 0

/-- Index computation of the RequestData script (lines 206-209):
`try: idx = custom_times.index(current) except ValueError: idx = 0`. -/
def resolveDataIdx (ts : List Int) (current : Option Int) : Nat :=
  match pyIndexMaybe ts current with
  | some i => i
  | none => 0

/-- State threaded between the passes: the session plus the
`current_requested_custom_time` attribute (outer `none` = attribute absent,
inner value = the recorded requested time, itself possibly Python `None`). -/
structure PipelineState where
  session : SessionState
  current_requested_custom_time : Option (Option Int)
deriving DecidableEq, Repr

/-- The RequestUpdateExtent script (lines 140-160): resolve the index,
push `orig_times[idx]` upstream (`none` models an `IndexError`), and record
the requested time (line 160 re-reads the same unchanged output key). -/
def requestUpdateExtent (st : PipelineState) (requested_time : Option Int) :
    PipelineState × Option Int :=
  let idx := resolveUpdateIdx st.session.custom_times requested_time
  let pushed := st.session.orig_times.get? idx
  ({ st with current_requested_custom_time := some requested_time }, pushed)

/-! ### RequestData: field-data fixes and annotation -/

/-- A field-data array: VTK array name (may be absent) and payload. -/
inductive FDValue where
  | strArr (s : String) : FDValue
  | otherArr (id : Nat) : FDValue
deriving DecidableEq, Repr

/-- One entry of a vtkFieldData: optional name and value. -/
abbrev FieldArr := Option String × FDValue

/-- Line 183: `name is not None and ("time" in name.lower() and "units" in
name.lower())`. -/
def nameMatchesTimeUnits (n : Option String) : Bool :=
  match n with
  | none => false
  | some s => strContainsSub (pyLower s) "time" && strContainsSub (pyLower s) "units"

/-- Lines 180-184: the names collected into `arrays_to_remove`, one per
matching array occurrence. -/
def arraysToRemove (fd : List FieldArr) : List String :=
  fd.filterMap (fun a =>
    match a.1 with
    | some n => if nameMatchesTimeUnits (some n) then some n else none
    | none => none)

/-- `vtkFieldData::RemoveArray(name)`: removes the first array with that
name. -/
def removeFirstNamed (fd : List FieldArr) (n : String) : List FieldArr :=
  match fd with
  | [] => []
  | a :: rest => if a.1 == some n then rest else a :: removeFirstNamed rest n

/-- Lines 178-195: remove every collected name, then append the fresh
single-value `time_units` string array holding `self.new_units`. -/
def fixTimeUnits (fd : List FieldArr) (units : String) : List FieldArr :=
  (arraysToRemove fd).foldl removeFirstNamed fd
    ++ [(some "time_units", .strArr units)]

/-- Lines 199-203: the current custom time used by RequestData — the
recorded attribute when present, else `custom_times[0]` (outer `none`
models the `IndexError` on an empty list). -/
def requestDataCurrent (st : PipelineState) : Option (Option Int) :=
  match st.current_requested_custom_time with
  | some r => some r
  | none => (st.session.custom_times.head?).map some

/-- The index RequestData selects (lines 199-209); `none` models a crash
before the lookup. -/
def requestDataIdx (st : PipelineState) : Option Nat :=
  (requestDataCurrent st).map (fun cur => resolveDataIdx st.session.custom_times cur)

/-- The RequestData script (lines 172-219) acting on the input's field
data: fix the time-units arrays, then append the `current_date` annotation
for the resolved index (`none` models an `IndexError`). -/
def requestData (st : PipelineState) (inputFieldData : List FieldArr) :
    Option (List FieldArr) :=
  (requestDataIdx st).bind (fun idx =>
    (st.session.custom_times_annotation.get? idx).map (fun ann =>
      fixTimeUnits inputFieldData st.session.new_units
        ++ [(some "current_date", .strArr ann)]))

/-! ## Helper lemmas -/

/-- A value that does not occur in the list makes `list.index` raise. -/
theorem pyListIndex_of_not_mem {l : List Int} {v : Int} (h : v ∉ l) :
    pyListIndex l v = none := by
  induction l with
  | nil => rfl
  | cons x xs ih =>
    have hxv : ¬x = v := fun he => h (he ▸ List.mem_cons_self x xs)
    simp only [pyListIndex, if_neg hxv,
      ih (fun hm => h (List.mem_cons_of_mem _ hm))]
    rfl

/-- On a duplicate-free list, `list.index` recovers every position. -/
theorem pyListIndex_get_of_nodup :
    ∀ {l : List Int}, l.Nodup → ∀ (i : Nat) (hi : i < l.length),
      pyListIndex l l[i] = some i := by
  intro l
  induction l with
  | nil => intro _ i hi; simp at hi
  | cons x xs ih =>
    intro hnd i hi
    cases i with
    | zero => simp [pyListIndex]
    | succ j =>
      have hj : j < xs.length := Nat.lt_of_succ_lt_succ hi
      have hx : x ∉ xs := (List.nodup_cons.mp hnd).1
      have hne : ¬x = xs[j] :=
        fun he => hx (he ▸ List.getElem_mem hj)
      have hrec := ih (List.nodup_cons.mp hnd).2 j hj
      simp only [List.getElem_cons_succ, pyListIndex, if_neg hne, hrec]
      rfl

/-- The annotation loop yields one string per input line. -/
theorem buildAnnotations_ok_length :
    ∀ {ls anns : List String}, buildAnnotations ls = .ok anns →
      anns.length = ls.length := by
  intro ls
  induction ls with
  | nil =>
    intro anns h
    simp only [buildAnnotations] at h
    cases h
    rfl
  | cons l ls ih =>
    intro anns h
    simp only [buildAnnotations] at h
    split at h
    · exact Except.noConfusion h
    split at h
    · exact Except.noConfusion h
    next rest hrest =>
      cases h
      simp [ih hrest]

/-- The custom-times loop yields one duration per input line. -/
theorem buildCustomTimes_ok_length :
    ∀ {refSec : Int} {ls : List String} {ts : List Int},
      buildCustomTimes refSec ls = .ok ts → ts.length = ls.length := by
  intro refSec ls
  induction ls with
  | nil =>
    intro ts h
    simp only [buildCustomTimes] at h
    cases h
    rfl
  | cons l ls ih =>
    intro ts h
    simp only [buildCustomTimes] at h
    split at h
    · exact Except.noConfusion h
    split at h
    · exact Except.noConfusion h
    next rest hrest =>
      cases h
      simp [ih hrest]

/-- If every line passes `parse_date`, the annotation loop succeeds. -/
theorem buildAnnotations_ok_of_all :
    ∀ {ls : List String}, (∀ l ∈ ls, (parse_date l).isOk) →
      ∃ anns, buildAnnotations ls = .ok anns := by
  intro ls
  induction ls with
  | nil => exact fun _ => ⟨[], rfl⟩
  | cons l ls ih =>
    intro h
    have hl := h l (List.mem_cons_self l ls)
    obtain ⟨anns, hanns⟩ := ih (fun x hx => h x (List.mem_cons_of_mem _ hx))
    match hp : parse_date l with
    | .error e => rw [hp] at hl; exact absurd hl (by simp [Except.isOk, Except.toBool])
    | .ok (d, t) =>
      exact ⟨(d ++ " " ++ t) :: anns, by simp [buildAnnotations, hp, hanns]⟩

/-- If every line parses as a datetime, the custom-times loop succeeds,
with one duration per line. -/
theorem buildCustomTimes_ok_of_all :
    ∀ {refSec : Int} {ls : List String},
      (∀ l ∈ ls, (parseDatetime64 l).isSome) →
      ∃ ts, buildCustomTimes refSec ls = .ok ts ∧ ts.length = ls.length := by
  intro refSec ls
  induction ls with
  | nil => exact fun _ => ⟨[], rfl, rfl⟩
  | cons l ls ih =>
    intro h
    have hl := h l (List.mem_cons_self l ls)
    obtain ⟨ts, hts, hlen⟩ := ih (fun x hx => h x (List.mem_cons_of_mem _ hx))
    match hp : parseDatetime64 l with
    | none => rw [hp] at hl; exact absurd hl (by simp)
    | some sec =>
      exact ⟨(sec - refSec) :: ts, by simp [buildCustomTimes, hp, hts], by simp [hlen]⟩

/-- Inversion of a successful RequestInformation pass: every intermediate
step succeeded and the session state is exactly the assembled record. -/
theorem buildSession_ok_inv {raw : List String} {native : List Int}
    {s : SessionState} (hb : buildSession raw native = .ok s) :
    ∃ l0 rest refSec refD refT anns customs,
      filterLines raw = l0 :: rest ∧
      parseDatetime64 l0 = some refSec ∧
      parse_date l0 = .ok (refD, refT) ∧
      buildAnnotations (l0 :: rest) = .ok anns ∧
      buildCustomTimes refSec (l0 :: rest) = .ok customs ∧
      native.length = customs.length ∧
      s = { new_units := "seconds since " ++ refD ++ " " ++ refT
            custom_times_annotation := anns
            custom_times := customs
            orig_times := native } := by
  unfold buildSession at hb
  split at hb
  · exact Except.noConfusion hb
  next l0 rest heq =>
    split at hb
    · exact Except.noConfusion hb
    next refSec href =>
      split at hb
      · exact Except.noConfusion hb
      next refD refT hparse =>
        split at hb
        · exact Except.noConfusion hb
        next anns hanns =>
          split at hb
          · exact Except.noConfusion hb
          next customs hcustoms =>
            split at hb
            · exact Except.noConfusion hb
            next hlen =>
              rw [Except.ok.injEq] at hb
              subst hb
              exact ⟨l0, rest, refSec, refD, refT, anns, customs, heq, href,
                hparse, hanns, hcustoms, not_not.mp hlen, rfl⟩

/-- In a non-decreasing list, every element is at most the last one. -/
theorem le_getLastD_of_sorted :
    ∀ (a : Int) (l : List Int), (a :: l).Sorted (· ≤ ·) →
      ∀ t ∈ a :: l, t ≤ l.getLastD a := by
  intro a l
  induction l generalizing a with
  | nil =>
    intro _ t ht
    rw [List.mem_singleton] at ht
    simp [ht, List.getLastD]
  | cons b bs ih =>
    intro hs t ht
    rw [List.getLastD_cons]
    have hab : a ≤ b := (List.pairwise_cons.mp hs).1 b (List.mem_cons_self b bs)
    have htail : (b :: bs).Sorted (· ≤ ·) := hs.of_cons
    rcases List.mem_cons.mp ht with h1 | h2
    · exact h1 ▸ le_trans hab (ih b htail b (List.mem_cons_self b bs))
    · exact ih b htail t h2

/-- In a non-decreasing list, the head is at most every element. -/
theorem head_le_of_sorted (a : Int) (l : List Int)
    (hs : (a :: l).Sorted (· ≤ ·)) : ∀ t ∈ a :: l, a ≤ t := by
  intro t ht
  rcases List.mem_cons.mp ht with h1 | h2
  · exact h1 ▸ le_refl a
  · exact (List.pairwise_cons.mp hs).1 t h2

/-- Every name collected into `arrays_to_remove` matches the
time-and-units test. -/
theorem arraysToRemove_sound :
    ∀ {fd : List FieldArr} {n : String}, n ∈ arraysToRemove fd →
      nameMatchesTimeUnits (some n) = true := by
  intro fd
  induction fd with
  | nil => intro n h; simp [arraysToRemove] at h
  | cons a fd ih =>
    intro n h
    rcases h1 : a.1 with _ | m
    · simp only [arraysToRemove, List.filterMap_cons, h1] at h
      exact ih h
    · by_cases hm : nameMatchesTimeUnits (some m) = true
      · simp only [arraysToRemove, List.filterMap_cons, h1, if_pos hm] at h
        rcases List.mem_cons.mp h with h2 | h3
        · exact h2 ▸ hm
        · exact ih h3
      · simp only [arraysToRemove, List.filterMap_cons, h1, if_neg hm] at h
        exact ih h

/-- Removing a batch of matching names walks past a non-matching array. -/
theorem foldl_remove_skip :
    ∀ (ns : List String), (∀ n ∈ ns, nameMatchesTimeUnits (some n) = true) →
      ∀ (a : FieldArr), nameMatchesTimeUnits a.1 = false →
        ∀ (fd : List FieldArr),
          ns.foldl removeFirstNamed (a :: fd) = a :: ns.foldl removeFirstNamed fd := by
  intro ns
  induction ns with
  | nil => intro _ a _ fd; rfl
  | cons n ns ih =>
    intro hns a ha fd
    have hne : (a.1 == some n) = false := by
      rcases h1 : a.1 with _ | m
      · rfl
      · have : ¬m = n := by
          intro he
          have := hns n (List.mem_cons_self n ns)
          rw [← he, ← h1] at this
          rw [this] at ha
          exact Bool.true_eq_false ▸ (ha ▸ rfl)
        simp [this]
    have hstep : removeFirstNamed (a :: fd) n = a :: removeFirstNamed fd n := by
      simp [removeFirstNamed, hne]
    rw [List.foldl_cons, hstep,
      ih (fun m hm => hns m (List.mem_cons_of_mem _ hm)) a ha (removeFirstNamed fd n)]
    rfl

/-- The RemoveArray loop deletes exactly the matching arrays: folding the
collected names over the field data leaves the non-matching arrays, in
order. -/
theorem foldl_remove_all :
    ∀ (fd : List FieldArr),
      (arraysToRemove fd).foldl removeFirstNamed fd
        = fd.filter (fun a => !nameMatchesTimeUnits a.1) := by
  intro fd
  induction fd with
  | nil => rfl
  | cons a fd ih =>
    rcases hP : nameMatchesTimeUnits a.1 with _ | _
    · -- non-matching array: it is never collected and never removed
      have hcol : arraysToRemove (a :: fd) = arraysToRemove fd := by
        rcases h1 : a.1 with _ | m
        · simp [arraysToRemove, List.filterMap_cons, h1]
        · rw [h1] at hP
          simp [arraysToRemove, List.filterMap_cons, h1, hP]
      rw [hcol, foldl_remove_skip (arraysToRemove fd)
        (fun n hn => arraysToRemove_sound hn) a hP fd, ih]
      simp [List.filter_cons, hP]
    · -- matching array: its name is collected and removes it first
      rcases h1 : a.1 with _ | m
      · rw [h1] at hP; simp [nameMatchesTimeUnits] at hP
      · rw [h1] at hP
        have hcol : arraysToRemove (a :: fd) = m :: arraysToRemove fd := by
          simp [arraysToRemove, List.filterMap_cons, h1, hP]
        have hrm : removeFirstNamed (a :: fd) m = fd := by
          simp [removeFirstNamed, h1]
        rw [hcol, List.foldl_cons, hrm, ih]
        simp [List.filter_cons, h1, hP]

/-- The default value form of `List.getLastD` stays inside the cons list. -/
theorem getLastD_mem_cons : ∀ (l : List Int) (a : Int), l.getLastD a ∈ a :: l := by
  intro l
  induction l with
  | nil => intro a; simp [List.getLastD]
  | cons b bs ih =>
    intro a
    rw [List.getLastD_cons]
    rcases List.mem_cons.mp (ih b) with h | h
    · rw [h]; exact List.mem_cons_of_mem a (List.mem_cons_self b bs)
    · exact List.mem_cons_of_mem a (List.mem_cons_of_mem b h)

/-! ## Claims -/

/-- C1, counterexample: the round-trip `resolveIndexFromCustomValue(session,
CustomTimeline[i]) == i` fails as stated. Two identical entries build
successfully (duplicates are not rejected), CustomTimeline is `[0, 0]`,
and resolving `CustomTimeline[1] = 0` returns the first occurrence, index
0, not 1 — in both the RequestUpdateExtent and the RequestData lookup. -/
theorem roundTrip_duplicate_counterexample :
    buildSession ["2000-01-01T00:00:00", "2000-01-01T00:00:00"] [7, 8]
      = .ok { new_units := "seconds since 2000-01-01 00:00:00"
              custom_times_annotation := ["2000-01-01 00:00:00", "2000-01-01 00:00:00"]
              custom_times := [0, 0]
              orig_times := [7, 8] }
    ∧ resolveDataIdx [0, 0] (some (([0, 0] : List Int)[1])) ≠ 1
    ∧ resolveUpdateIdx [0, 0] (some (([0, 0] : List Int)[1])) ≠ 1 := by
  decide

/-- C1 (amended): for every built session state whose custom time values
are pairwise distinct (which duplicate file entries violate), resolving the
i-th custom time value by the exact-match search of either later pass
yields i. In general `list.index` returns the first position holding an
equal value. -/
theorem roundTrip_of_nodup (raw : List String) (native : List Int)
    (s : SessionState) (hb : buildSession raw native = .ok s)
    (hnd : s.custom_times.Nodup) (i : Nat) (hi : i < s.custom_times.length) :
    resolveDataIdx s.custom_times (some s.custom_times[i]) = i ∧
    resolveUpdateIdx s.custom_times (some s.custom_times[i]) = i := by
  have h := pyListIndex_get_of_nodup hnd i hi
  constructor
  · simp [resolveDataIdx, pyIndexMaybe, h]
  · simp [resolveUpdateIdx, h]

/-- C1 witness: a concrete two-entry session with distinct custom times
round-trips index 1. -/
theorem roundTrip_of_nodup_witness :
    resolveDataIdx [0, 1] (some (([0, 1] : List Int)[1])) = 1 ∧
    resolveUpdateIdx [0, 1] (some (([0, 1] : List Int)[1])) = 1 :=
  roundTrip_of_nodup ["2000-01-01T00:00:00", "2000-01-01T00:00:01"] [3, 4]
    { new_units := "seconds since 2000-01-01 00:00:00"
      custom_times_annotation := ["2000-01-01 00:00:00", "2000-01-01 00:00:01"]
      custom_times := [0, 1]
      orig_times := [3, 4] }
    (by decide) (by decide) 1 (by decide)

/-- C2: the two-entry BCE list `["-0100-01-01T00:00:00",
"0001-01-01T00:00:00"]` builds without any rejection of the non-positive
year, and the duration of the second entry is exactly
`(101 * 365 + 25) * 86400 = 3187296000` whole seconds — 101 proleptic
Gregorian years from year -100 to year 1 containing 25 leap days — a
positive value with no wraparound or overflow. -/
theorem bce_duration_exact :
    buildSession ["-0100-01-01T00:00:00", "0001-01-01T00:00:00"] [100, 200]
      = .ok { new_units := "seconds since -0100-01-01 00:00:00"
              custom_times_annotation := ["-0100-01-01 00:00:00", "0001-01-01 00:00:00"]
              custom_times := [0, 3187296000]
              orig_times := [100, 200] }
    ∧ (3187296000 : Int) = (101 * 365 + 25) * 86400
    ∧ (0 : Int) < 3187296000 := by
  decide

/-- C3: requesting a custom time value that is not an element of the built
CustomTimeline resolves to index 0 in both the RequestUpdateExtent lookup
and the RequestData lookup; the `ValueError` is caught, so the total
resolution functions return rather than fail. -/
theorem lookup_miss_falls_back_to_zero (raw : List String) (native : List Int)
    (s : SessionState) (hb : buildSession raw native = .ok s)
    (v : Int) (hv : v ∉ s.custom_times) :
    resolveUpdateIdx s.custom_times (some v) = 0 ∧
    resolveDataIdx s.custom_times (some v) = 0 := by
  have h := pyListIndex_of_not_mem hv
  exact ⟨by simp [resolveUpdateIdx, h], by simp [resolveDataIdx, pyIndexMaybe, h]⟩

/-- C3 witness: on the one-entry session with CustomTimeline `[0]`, the
absent value 5 resolves to 0 in both passes. -/
theorem lookup_miss_falls_back_to_zero_witness :
    resolveUpdateIdx [0] (some 5) = 0 ∧ resolveDataIdx [0] (some 5) = 0 :=
  lookup_miss_falls_back_to_zero ["2000-01-01T00:00:00"] [0]
    { new_units := "seconds since 2000-01-01 00:00:00"
      custom_times_annotation := ["2000-01-01 00:00:00"]
      custom_times := [0]
      orig_times := [0] }
    (by decide) 5 (by decide)

/-- C4: when every usable line parses but the upstream native step count
differs from the number of parsed entries, the build fails with the
step-count-mismatch error carrying both counts, and no session state is
produced (the result is an `Except.error`). -/
theorem step_count_mismatch_fails (raw : List String) (native : List Int)
    (hne : filterLines raw ≠ [])
    (hok : ∀ l ∈ filterLines raw, (parse_date l).isOk ∧ (parseDatetime64 l).isSome)
    (hcount : (filterLines raw).length ≠ native.length) :
    buildSession raw native
      = .error (.stepCountMismatch (filterLines raw).length native.length) := by
  match hl : filterLines raw with
  | [] => exact absurd hl hne
  | l0 :: rest =>
    rw [hl] at hok hcount
    have h0 := hok l0 (List.mem_cons_self l0 rest)
    obtain ⟨refSec, href⟩ := Option.isSome_iff_exists.mp h0.2
    obtain ⟨anns, hanns⟩ := buildAnnotations_ok_of_all (fun l h => (hok l h).1)
    obtain ⟨ts, hts, htslen⟩ :=
      @buildCustomTimes_ok_of_all refSec (l0 :: rest) (fun l h => (hok l h).2)
    match hp : parse_date l0 with
    | .error e =>
      rw [hp] at h0
      exact absurd h0.1 (by simp [Except.isOk, Except.toBool])
    | .ok (d, t) =>
      have hnt : native.length ≠ ts.length := by
        rw [htslen]; exact fun he => hcount he.symm
      unfold buildSession
      rw [hl]
      simp only [href, hp, hanns, hts]
      rw [if_pos hnt, htslen]

/-- C4 witness: a file with 3 entries against 5 native steps raises the
mismatch error reporting 3 and 5. -/
theorem step_count_mismatch_fails_witness :
    buildSession
        ["2000-01-01T00:00:00", "2000-01-01T00:00:01", "2000-01-01T00:00:02"]
        [1, 2, 3, 4, 5]
      = .error (.stepCountMismatch 3 5) :=
  step_count_mismatch_fails
    ["2000-01-01T00:00:00", "2000-01-01T00:00:01", "2000-01-01T00:00:02"]
    [1, 2, 3, 4, 5] (by decide) (by decide) (by decide)

/-- C5, counterexample: the published TIME_RANGE is
`[custom_times[0], custom_times[-1]]`, not `[min, max]`. For a
decreasing entry list the build succeeds with CustomTimeline
`[0, -86400]`, the published pair is `(0, -86400)`, and its first
component 0 fails to bound the member -86400 from below. -/
theorem published_range_not_min_max_counterexample :
    buildSession ["2000-01-02T00:00:00", "2000-01-01T00:00:00"] [5, 6]
      = .ok { new_units := "seconds since 2000-01-02 00:00:00"
              custom_times_annotation := ["2000-01-02 00:00:00", "2000-01-01 00:00:00"]
              custom_times := [0, -86400]
              orig_times := [5, 6] }
    ∧ publishedTimeRange
        { new_units := "seconds since 2000-01-02 00:00:00"
          custom_times_annotation := ["2000-01-02 00:00:00", "2000-01-01 00:00:00"]
          custom_times := [0, -86400]
          orig_times := [5, 6] }
        = some (0, -86400)
    ∧ (-86400 : Int) ∈ ([0, -86400] : List Int)
    ∧ ¬((0 : Int) ≤ -86400) := by
  decide

/-- C5 (amended): the published time range is the pair (first, last) of
CustomTimeline; when the custom times are non-decreasing — the expected
but unenforced case — this pair is `[min, max]`: both bounds are elements
and every custom time value lies between them. -/
theorem published_range_bounds_of_sorted (raw : List String) (native : List Int)
    (s : SessionState) (hb : buildSession raw native = .ok s)
    (hsorted : s.custom_times.Sorted (· ≤ ·)) :
    ∃ lo hi, publishedTimeRange s = some (lo, hi) ∧ lo ∈ s.custom_times ∧
      hi ∈ s.custom_times ∧ ∀ t ∈ s.custom_times, lo ≤ t ∧ t ≤ hi := by
  obtain ⟨l0, rest, refSec, refD, refT, anns, customs, hl, href, hp, hanns,
    hcustoms, hlen, hs⟩ := buildSession_ok_inv hb
  have hclen := buildCustomTimes_ok_length hcustoms
  subst hs
  cases customs with
  | nil => simp at hclen
  | cons t0 ts =>
    refine ⟨t0, ts.getLastD t0, rfl, List.mem_cons_self t0 ts,
      getLastD_mem_cons ts t0, ?_⟩
    intro t ht
    exact ⟨head_le_of_sorted t0 ts hsorted t ht,
      le_getLastD_of_sorted t0 ts hsorted t ht⟩

/-- C5 witness: on the sorted two-entry session with CustomTimeline
`[0, 86400]` the published range is an inclusive bound on all values. -/
theorem published_range_bounds_of_sorted_witness :
    ∃ lo hi,
      publishedTimeRange
          { new_units := "seconds since 2000-01-01 00:00:00"
            custom_times_annotation := ["2000-01-01 00:00:00", "2000-01-02 00:00:00"]
            custom_times := [0, 86400]
            orig_times := ([1, 2] : List Int) }
        = some (lo, hi)
      ∧ lo ∈ ([0, 86400] : List Int) ∧ hi ∈ ([0, 86400] : List Int)
      ∧ ∀ t ∈ ([0, 86400] : List Int), lo ≤ t ∧ t ≤ hi :=
  published_range_bounds_of_sorted
    ["2000-01-01T00:00:00", "2000-01-02T00:00:00"] [1, 2]
    { new_units := "seconds since 2000-01-01 00:00:00"
      custom_times_annotation := ["2000-01-01 00:00:00", "2000-01-02 00:00:00"]
      custom_times := [0, 86400]
      orig_times := [1, 2] }
    (by decide) (by decide)

/-- C6, counterexample: the `startswith("#")` test runs on the raw,
unstripped line, so a comment line with leading whitespace is NOT dropped:
it survives the filter as `"#note"`, reaches entry parsing, and makes the
whole build fail with a malformed-entry error instead of being ignored. -/
theorem comment_with_leading_space_survives :
    filterLines ["2000-01-01T00:00:00", "  #note"]
      = ["2000-01-01T00:00:00", "#note"]
    ∧ buildSession ["2000-01-01T00:00:00", "  #note"] [0]
        = .error (.malformedEntry "#note") := by
  decide

/-- C6 (amended): a line is dropped exactly when it is blank after
stripping or its raw text begins with `#`; kept lines are stripped. The
two implications characterize the contribution of any single line inside
any file. A comment line with leading whitespace satisfies neither drop
condition, so it is kept (stripped) and reaches entry parsing. -/
theorem filterLines_drop_keep (pre post : List String) (l : String) :
    ((pyStrip l = "" ∨ pyStartsWithHash l = true) →
        filterLines (pre ++ l :: post) = filterLines pre ++ filterLines post)
    ∧ ((pyStrip l ≠ "" ∧ pyStartsWithHash l = false) →
        filterLines (pre ++ l :: post)
          = filterLines pre ++ pyStrip l :: filterLines post) := by
  constructor
  · intro h
    have hc : (!(pyStrip l == "") && !pyStartsWithHash l) = false := by
      rcases h with h | h
      · simp [h]
      · simp [h]
    simp [filterLines, List.filter_append, List.filter_cons, hc]
  · intro h
    have hc : (!(pyStrip l == "") && !pyStartsWithHash l) = true := by
      simp [h.1, h.2]
    simp [filterLines, List.filter_append, List.filter_cons, hc]

/-- C6 witness: a plain comment line contributes nothing. -/
theorem filterLines_drop_keep_witness :
    filterLines ["#c"] = filterLines [] ++ filterLines [] :=
  (filterLines_drop_keep [] [] "#c").1 (Or.inr (by decide))

/-- C7: the display unit string is the textual concatenation
`"seconds since " + datePart + " " + timePart` of the raw reference
entry's parts as split by `parse_date`, not a re-formatted instant. -/
theorem new_units_from_raw_reference_parts (raw : List String)
    (native : List Int) (s : SessionState) (l0 : String) (rest : List String)
    (d t : String) (hb : buildSession raw native = .ok s)
    (hl : filterLines raw = l0 :: rest)
    (hp : parse_date l0 = .ok (d, t)) :
    s.new_units = "seconds since " ++ d ++ " " ++ t := by
  obtain ⟨l0a, resta, refSec, refD, refT, anns, customs, hla, href, hpa,
    hanns, hcustoms, hlen, hs⟩ := buildSession_ok_inv hb
  rw [hl] at hla
  injection hla with h1 h2
  rw [← h1, hp] at hpa
  injection hpa with h3
  injection h3 with hd ht
  rw [hs]
  show "seconds since " ++ refD ++ " " ++ refT = "seconds since " ++ d ++ " " ++ t
  rw [hd, ht]

/-- C7 witness: for the reference line `"2000-01-01T12:00:00"` the stored
unit string equals `"seconds since 2000-01-01 12:00:00"`. -/
theorem new_units_from_raw_reference_parts_witness :
    ({ new_units := "seconds since 2000-01-01 12:00:00"
       custom_times_annotation := ["2000-01-01 12:00:00"]
       custom_times := [0]
       orig_times := ([0] : List Int) } : SessionState).new_units
      = "seconds since " ++ "2000-01-01" ++ " " ++ "12:00:00" :=
  new_units_from_raw_reference_parts ["2000-01-01T12:00:00"] [0]
    { new_units := "seconds since 2000-01-01 12:00:00"
      custom_times_annotation := ["2000-01-01 12:00:00"]
      custom_times := [0]
      orig_times := [0] }
    "2000-01-01T12:00:00" [] "2000-01-01" "12:00:00"
    (by decide) (by decide) (by decide)

/-- C8: after the RequestData field-data fix, the only array whose name
contains both "time" and "units" case-insensitively is the freshly added
`time_units` string array holding the stored unit string: every
pre-existing matching array, whatever its exact name, has been removed
before the new one is appended. -/
theorem stale_time_units_removed (fd : List FieldArr) (units : String) :
    (fixTimeUnits fd units).filter (fun a => nameMatchesTimeUnits a.1)
      = [(some "time_units", FDValue.strArr units)] := by
  rw [fixTimeUnits, foldl_remove_all, List.filter_append]
  have h1 : (fd.filter (fun a => !nameMatchesTimeUnits a.1)).filter
      (fun a => nameMatchesTimeUnits a.1) = [] := by
    rw [List.filter_eq_nil_iff]
    intro a ha
    have h2 := (List.mem_filter.mp ha).2
    have hf : nameMatchesTimeUnits a.1 = false := by
      cases hx : nameMatchesTimeUnits a.1
      · rfl
      · rw [hx] at h2; exact absurd h2 (by decide)
    simp [hf]
  have h2 : List.filter (fun a => nameMatchesTimeUnits a.1)
      [((some "time_units" : Option String), FDValue.strArr units)]
      = [(some "time_units", FDValue.strArr units)] := by
    have hm : nameMatchesTimeUnits (some "time_units") = true := by decide
    simp [List.filter, hm]
  rw [h1, h2]
  rfl

/-- C9: a successful build makes CustomTimeline, AnnotationList and
OriginalTimeline all as long as the filtered entry list, and the
RequestUpdateExtent pass leaves the whole session state untouched (it only
records the requested time; the RequestData pass reads the session without
returning any modified state at all). -/
theorem timeline_lengths_invariant (raw : List String) (native : List Int)
    (s : SessionState) (hb : buildSession raw native = .ok s) :
    (s.custom_times.length = (filterLines raw).length
      ∧ s.custom_times_annotation.length = (filterLines raw).length
      ∧ s.orig_times.length = (filterLines raw).length)
    ∧ ∀ (st : PipelineState) (req : Option Int), st.session = s →
        ((requestUpdateExtent st req).1).session = s := by
  obtain ⟨l0, rest, refSec, refD, refT, anns, customs, hl, href, hp, hanns,
    hcustoms, hlen, hs⟩ := buildSession_ok_inv hb
  subst hs
  rw [hl]
  refine ⟨⟨?_, ?_, ?_⟩, ?_⟩
  · exact buildCustomTimes_ok_length hcustoms
  · exact buildAnnotations_ok_length hanns
  · exact hlen.trans (buildCustomTimes_ok_length hcustoms)
  · intro st req hst
    rw [← hst]
    rfl

/-- C9 witness: the lengths agree on a concrete two-entry session and the
extent pass preserves it. -/
theorem timeline_lengths_invariant_witness :
    (([0, 1] : List Int).length
        = (filterLines ["2000-01-01T00:00:00", "2000-01-01T00:00:01"]).length
      ∧ (["2000-01-01 00:00:00", "2000-01-01 00:00:01"] : List String).length
        = (filterLines ["2000-01-01T00:00:00", "2000-01-01T00:00:01"]).length
      ∧ (([3, 4] : List Int)).length
        = (filterLines ["2000-01-01T00:00:00", "2000-01-01T00:00:01"]).length)
    ∧ ∀ (st : PipelineState) (req : Option Int),
        st.session
          = { new_units := "seconds since 2000-01-01 00:00:00"
              custom_times_annotation := ["2000-01-01 00:00:00", "2000-01-01 00:00:01"]
              custom_times := [0, 1]
              orig_times := [3, 4] } →
        ((requestUpdateExtent st req).1).session
          = { new_units := "seconds since 2000-01-01 00:00:00"
              custom_times_annotation := ["2000-01-01 00:00:00", "2000-01-01 00:00:01"]
              custom_times := [0, 1]
              orig_times := [3, 4] } :=
  timeline_lengths_invariant ["2000-01-01T00:00:00", "2000-01-01T00:00:01"]
    [3, 4]
    { new_units := "seconds since 2000-01-01 00:00:00"
      custom_times_annotation := ["2000-01-01 00:00:00", "2000-01-01 00:00:01"]
      custom_times := [0, 1]
      orig_times := [3, 4] }
    (by decide)

/-- C10: for every pipeline state and every requested custom time
(including `None` and values absent from CustomTimeline), the index the
RequestData pass computes from the value recorded by RequestUpdateExtent
equals the index RequestUpdateExtent itself used, and the time pushed
upstream is the original time at that same index — so the upstream value
and the attached annotation always belong to the same position. The two
code sites differ structurally (an explicit `None` test versus feeding
`None` into `list.index` and catching the `ValueError`) but resolve
identically. -/
theorem extent_and_data_indices_agree (st : PipelineState) (req : Option Int) :
    requestDataIdx ((requestUpdateExtent st req).1)
        = some (resolveUpdateIdx st.session.custom_times req)
    ∧ (requestUpdateExtent st req).2
        = st.session.orig_times.get? (resolveUpdateIdx st.session.custom_times req) := by
  constructor
  · have hidx : resolveDataIdx st.session.custom_times req
        = resolveUpdateIdx st.session.custom_times req := by
      cases req with
      | none => rfl
      | some v =>
        cases hpi : pyListIndex st.session.custom_times v
        · simp [resolveDataIdx, resolveUpdateIdx, pyIndexMaybe, hpi]
        · simp [resolveDataIdx, resolveUpdateIdx, pyIndexMaybe, hpi]
    have h1 : requestDataIdx ((requestUpdateExtent st req).1)
        = some (resolveDataIdx st.session.custom_times req) := rfl
    rw [h1, hidx]
  · rfl

end TimeRemapper
